import Mathlib

/-!
Shallow embedding of the `sun` Kubernetes alerting daemon.

Timestamps (`time.Time`) are modelled as integers (seconds); the Go zero
value `time.Time\x7b\x7d` is modelled as `0`.  The per-family state maps
(`podStates`, `nodeStates`, ...) are modelled as association lists where a
map write conses the new binding in front and `lookup` returns the first
binding.  Mutex operations have no observable effect in this sequential
model and are dropped.
-/

namespace Sun

/-- Model of `time.Time`: an integer timestamp, zero value = 0. -/
abbrev Time := Int

/-- `unitState` from the source (types file): per-object alert bookkeeping. -/
structure UnitState where
  hasError    : Bool
  lastSeen    : Time
  lastMessage : String
  firstError  : Time
  alertSent   : Bool
deriving Repr, DecidableEq

/-- Association-list model of a Go `map[string]α`: first binding wins. -/
def lookup {α : Type} : List (String × α) → String → Option α
  | [], _ => none
  | (k, v) :: rest, key => if k = key then some v else lookup rest key

/-- Model of a Go map write `m[key] = v`. -/
def setStore {α : Type} (s : List (String × α)) (k : String) (v : α) :
    List (String × α) := (k, v) :: s

/-- `nodeResourceState` from the source: embeds `unitState`. -/
structure NodeResourceState where
  unit            : UnitState
  cpuCapacity     : Int
  cpuRequests     : Int
  cpuUsagePercent : ℚ
  nodeName        : String
deriving Repr, DecidableEq

/-- `gitOpsState` from the source: embeds `unitState`.  The Go field
`namespace` is called `ns` here (`namespace` is a Lean keyword). -/
structure GitOpsState where
  unit           : UnitState
  repositoryName : String
  resourceKind   : String
  resourceName   : String
  ns             : String
  mismatchType   : String
  expectedHash   : String
  actualHash     : String
deriving Repr, DecidableEq

/-- `longhornUnitState` from the source: embeds `unitState`. -/
structure LonghornUnitState where
  unit         : UnitState
  resourceType : String
  capacity     : Int
  usage        : Int
  robustness   : String
  node         : String
  ns           : String
deriving Repr, DecidableEq

/-- `GitOpsRepository` config entry (fields the claims use). -/
structure GitOpsRepository where
  name            : String
  alertOnMismatch : Bool
deriving Repr, DecidableEq

/-- `GitOpsConfig` (fields the claims use). -/
structure GitOpsConfig where
  enabled         : Bool
  alertOnMismatch : Bool
  repositories    : List GitOpsRepository
deriving Repr, DecidableEq

/-- `LonghornThresholds` from the source config. -/
structure LonghornThresholds where
  volumeUsagePercent     : ℚ
  volumeCapacityCritical : Int
deriving Repr, DecidableEq

/-- `Config` (fields the claims use). -/
structure Config where
  interval : Int
  gitops   : GitOpsConfig
  longhorn : LonghornThresholds
deriving Repr, DecidableEq

/-- The global per-family state maps read by `shouldSendAlert`. -/
structure Stores where
  podStates          : List (String × UnitState)
  nodeStates         : List (String × UnitState)
  nodeResourceStates : List (String × NodeResourceState)
  gitOpsStates       : List (String × GitOpsState)
deriving Repr

/-- The `alertType` strings accepted by `shouldSendAlert`'s switch. -/
inductive AlertFamily | pod | node | nodeResource | gitops
deriving Repr, DecidableEq

/-- The Longhorn `resourceType` strings of `shouldSendLonghornAlert`. -/
inductive LonghornResourceType | volume | replica | engine | node | backup
deriving Repr, DecidableEq

/-- The five Longhorn state maps. -/
structure LonghornStores where
  volumeStates  : List (String × LonghornUnitState)
  replicaStates : List (String × LonghornUnitState)
  engineStates  : List (String × LonghornUnitState)
  nodeStates    : List (String × LonghornUnitState)
  backupStates  : List (String × LonghornUnitState)
deriving Repr

/-- `shouldSendAlert` from main.go: looks the key up in the family's state
map, then gates on `hasError`, `alertSent` and the configured interval
(`time.Since(state.firstError) >= interval minutes`; one minute = 60). -/
def shouldSendAlert (cfg : Config) (now : Time) (st : Stores)
    (alertType : AlertFamily) (key : String) : Bool :=
  let stateOpt : Option UnitState :=
    match alertType with
    | .pod => lookup st.podStates key
    | .node => lookup st.nodeStates key
    | .nodeResource => (lookup st.nodeResourceStates key).map (·.unit)
    | .gitops => (lookup st.gitOpsStates key).map (·.unit)
  match stateOpt with
  | none => false
  | some s =>
    if !s.hasError || s.alertSent then false
    else if cfg.interval = 0 then true
    else decide (now - s.firstError ≥ cfg.interval * 60)

/-- `shouldSendLonghornAlert` from longhorn.go: same gate over the five
Longhorn state maps. -/
def shouldSendLonghornAlert (cfg : Config) (now : Time) (lst : LonghornStores)
    (resourceType : LonghornResourceType) (key : String) : Bool :=
  let stateOpt : Option LonghornUnitState :=
    match resourceType with
    | .volume => lookup lst.volumeStates key
    | .replica => lookup lst.replicaStates key
    | .engine => lookup lst.engineStates key
    | .node => lookup lst.nodeStates key
    | .backup => lookup lst.backupStates key
  match stateOpt with
  | none => false
  | some s =>
    if !s.unit.hasError || s.unit.alertSent then false
    else if cfg.interval = 0 then true
    else decide (now - s.unit.firstError ≥ cfg.interval * 60)

/-- `shouldSendGitOpsAlert` from gitops_status.go: the common gate plus the
global `gitops.alert_on_mismatch` flag and the per-repository flag. -/
def shouldSendGitOpsAlert (cfg : Config) (now : Time) (st : Stores)
    (key : String) : Bool :=
  match lookup st.gitOpsStates key with
  | none => false
  | some gst =>
    if !gst.unit.hasError || gst.unit.alertSent then false
    else if !cfg.gitops.alertOnMismatch then false
    else if cfg.gitops.repositories.any
        (fun r => r.name = gst.repositoryName && !r.alertOnMismatch) then false
    else if cfg.interval = 0 then true
    else decide (now - gst.unit.firstError ≥ cfg.interval * 60)

/-- The spec's alert gate, written from the spec's words: an entry exists,
`hasError`, not `alertSent`, and `interval==0 ∨ now − firstError ≥ interval
minutes`. -/
def AlertGateSpec (cfg : Config) (now : Time) (o : Option UnitState) : Prop :=
  ∃ s, o = some s ∧ s.hasError = true ∧ s.alertSent = false ∧
    (cfg.interval = 0 ∨ now - s.firstError ≥ cfg.interval * 60)

/-- The state entry `shouldSendAlert` consults for a family and key. -/
def familyState (st : Stores) (fam : AlertFamily) (key : String) :
    Option UnitState :=
  match fam with
  | .pod => lookup st.podStates key
  | .node => lookup st.nodeStates key
  | .nodeResource => (lookup st.nodeResourceStates key).map (·.unit)
  | .gitops => (lookup st.gitOpsStates key).map (·.unit)

/-- The state entry `shouldSendLonghornAlert` consults. -/
def longhornState (lst : LonghornStores) (rt : LonghornResourceType)
    (key : String) : Option LonghornUnitState :=
  match rt with
  | .volume => lookup lst.volumeStates key
  | .replica => lookup lst.replicaStates key
  | .engine => lookup lst.engineStates key
  | .node => lookup lst.nodeStates key
  | .backup => lookup lst.backupStates key

/-- A GitOps entry passing every gate condition (for concrete checks). -/
def c1gst : GitOpsState :=
  { unit := { hasError := true, lastSeen := 0, lastMessage := "m",
              firstError := 0, alertSent := false },
    repositoryName := "repo", resourceKind := "Deployment",
    resourceName := "app", ns := "default", mismatchType := "different",
    expectedHash := "", actualHash := "" }

/-- A configuration with immediate alerting and alerts enabled. -/
def c1cfg : Config :=
  { interval := 0,
    gitops := { enabled := true, alertOnMismatch := true,
                repositories := [{ name := "repo", alertOnMismatch := true }] },
    longhorn := { volumeUsagePercent := 85,
                  volumeCapacityCritical := 1073741824 } }

/-- The common gate body, as an iff against the spec's wording. -/
theorem gate_iff (cfg : Config) (now : Time) (o : Option UnitState) :
    (match o with
     | none => false
     | some s =>
       if !s.hasError || s.alertSent then false
       else if cfg.interval = 0 then true
       else decide (now - s.firstError ≥ cfg.interval * 60)) = true ↔
      AlertGateSpec cfg now o := by
  cases o with
  | none => simp [AlertGateSpec]
  | some s =>
    cases hE : s.hasError <;> cases hA : s.alertSent <;>
      by_cases hI : cfg.interval = 0 <;>
        simp [AlertGateSpec, hE, hA, hI]

/-- The Longhorn gate body, against the same spec wording on the embedded
`unitState`. -/
theorem gateLonghorn_iff (cfg : Config) (now : Time)
    (o : Option LonghornUnitState) :
    (match o with
     | none => false
     | some s =>
       if !s.unit.hasError || s.unit.alertSent then false
       else if cfg.interval = 0 then true
       else decide (now - s.unit.firstError ≥ cfg.interval * 60)) = true ↔
      AlertGateSpec cfg now (o.map (·.unit)) := by
  cases o with
  | none => simp [AlertGateSpec]
  | some s => simpa using gate_iff cfg now (some s.unit)

/-- C1: for every family (pod, node, node resource, Longhorn, GitOps) and
key, the alert gate returns true iff a state entry exists, `hasError` is
true, `alertSent` is false, and `interval==0 ∨ now − firstError ≥ interval`
minutes; the GitOps variant additionally requires the global
`gitops.alert_on_mismatch` flag and the owning repository's per-repo flag
to both be true. -/
theorem alert_gate_characterization (cfg : Config) (now : Time) (st : Stores)
    (lst : LonghornStores) (key : String) :
    (∀ fam : AlertFamily,
      shouldSendAlert cfg now st fam key = true ↔
        AlertGateSpec cfg now (familyState st fam key))
    ∧ (∀ rt : LonghornResourceType,
      shouldSendLonghornAlert cfg now lst rt key = true ↔
        AlertGateSpec cfg now ((longhornState lst rt key).map (·.unit)))
    ∧ (shouldSendGitOpsAlert cfg now st key = true ↔
        ∃ gst, lookup st.gitOpsStates key = some gst ∧
          gst.unit.hasError = true ∧ gst.unit.alertSent = false ∧
          cfg.gitops.alertOnMismatch = true ∧
          (∀ r ∈ cfg.gitops.repositories,
            r.name = gst.repositoryName → r.alertOnMismatch = true) ∧
          (cfg.interval = 0 ∨ now - gst.unit.firstError ≥ cfg.interval * 60)) := by
  refine ⟨fun fam => ?_, fun rt => ?_, ?_⟩
  · cases fam <;> exact gate_iff cfg now _
  · cases rt <;> exact gateLonghorn_iff cfg now _
  · unfold shouldSendGitOpsAlert
    cases h : lookup st.gitOpsStates key with
    | none => simp
    | some gst =>
      cases hE : gst.unit.hasError <;> cases hA : gst.unit.alertSent <;>
        by_cases hG : cfg.gitops.alertOnMismatch <;>
          by_cases hAny : cfg.gitops.repositories.any
              (fun r => r.name = gst.repositoryName && !r.alertOnMismatch) = true <;>
            by_cases hI : cfg.interval = 0 <;>
              simp_all [List.any_eq_true]

theorem alert_gate_characterization_witness :
    shouldSendGitOpsAlert c1cfg 5 ⟨[], [], [], [("k", c1gst)]⟩ "k" = true :=
  ((alert_gate_characterization c1cfg 5 ⟨[], [], [], [("k", c1gst)]⟩
      ⟨[], [], [], [], []⟩ "k").2.2).mpr
    ⟨c1gst, rfl, rfl, rfl, rfl, by decide, Or.inl rfl⟩

/-- `updatePodState` from the pod-handling file, with the `ns/name` key
passed directly.  On a missing key it inserts with `firstError = now`;
otherwise it resets on a fresh error, clears on recovery, and always
refreshes `hasError`, `lastSeen`, `lastMessage`. -/
def updatePodState (states : List (String × UnitState)) (key : String)
    (hasError : Bool) (errorMessage : String) (now : Time) :
    List (String × UnitState) :=
  match lookup states key with
  | none =>
    setStore states key
      { hasError := hasError, lastSeen := now, lastMessage := errorMessage,
        firstError := now, alertSent := false }
  | some prevState =>
    let p1 :=
      if hasError && !prevState.hasError then
        { prevState with firstError := now, alertSent := false }
      else if !hasError then
        { prevState with firstError := 0, alertSent := false }
      else prevState
    setStore states key
      { p1 with hasError := hasError, lastSeen := now,
                lastMessage := errorMessage }

/-- `updateNodeState` from nodes.go (same shape as `updatePodState`, keyed
by node name). -/
def updateNodeState (states : List (String × UnitState)) (nodeKey : String)
    (hasError : Bool) (errorMessage : String) (now : Time) :
    List (String × UnitState) :=
  match lookup states nodeKey with
  | none =>
    setStore states nodeKey
      { hasError := hasError, lastSeen := now, lastMessage := errorMessage,
        firstError := now, alertSent := false }
  | some prevState =>
    let p1 :=
      if hasError && !prevState.hasError then
        { prevState with firstError := now, alertSent := false }
      else if !hasError then
        { prevState with firstError := 0, alertSent := false }
      else prevState
    setStore states nodeKey
      { p1 with hasError := hasError, lastSeen := now,
                lastMessage := errorMessage }

/-- `updateNodeResourceState` from the node-resource monitoring code. -/
def updateNodeResourceState (states : List (String × NodeResourceState))
    (nodeName : String) (hasError : Bool) (errorMessage : String)
    (cpuCapacity cpuRequests : Int) (cpuUsagePercent : ℚ) (now : Time) :
    List (String × NodeResourceState) :=
  let prev := lookup states nodeName
  let base : NodeResourceState :=
    { unit := { hasError := hasError, lastSeen := now,
                lastMessage := errorMessage, firstError := 0,
                alertSent := false },
      cpuCapacity := cpuCapacity, cpuRequests := cpuRequests,
      cpuUsagePercent := cpuUsagePercent, nodeName := nodeName }
  let newState :=
    match prev with
    | none =>
      { base with unit := { base.unit with firstError := now, alertSent := false } }
    | some prevState =>
      if hasError && !prevState.unit.hasError then
        { base with unit := { base.unit with firstError := now, alertSent := false } }
      else if !hasError then
        { base with unit := { base.unit with firstError := 0, alertSent := false } }
      else
        { base with unit := { base.unit with firstError := prevState.unit.firstError,
                                             alertSent := prevState.unit.alertSent } }
  setStore states nodeName newState

/-- `updateGitOpsState` from gitops_status.go.  Note its branch structure:
`firstError`/`alertSent` are reset when the key is new, when the error
starts, or when `prevState.hasError` and the message text changed
(regardless of the new `hasError`); they are carried over when
`prevState.hasError` with the same message; otherwise they stay at the Go
zero values (0, false). -/
def updateGitOpsState (gitOpsStates : List (String × GitOpsState))
    (key : String) (hasError : Bool)
    (errorMessage repositoryName resourceKind resourceName ns mismatchType
      expectedHash actualHash : String) (now : Time) :
    List (String × GitOpsState) :=
  let prev := lookup gitOpsStates key
  let base : GitOpsState :=
    { unit := { hasError := hasError, lastSeen := now,
                lastMessage := errorMessage, firstError := 0,
                alertSent := false },
      repositoryName := repositoryName, resourceKind := resourceKind,
      resourceName := resourceName, ns := ns, mismatchType := mismatchType,
      expectedHash := expectedHash, actualHash := actualHash }
  let newState :=
    match prev with
    | none =>
      { base with unit := { base.unit with firstError := now, alertSent := false } }
    | some prevState =>
      if (!prevState.unit.hasError && hasError) ||
          (prevState.unit.hasError && prevState.unit.lastMessage ≠ errorMessage) then
        { base with unit := { base.unit with firstError := now, alertSent := false } }
      else if prevState.unit.hasError then
        { base with unit := { base.unit with firstError := prevState.unit.firstError,
                                             alertSent := prevState.unit.alertSent } }
      else base
  setStore gitOpsStates key newState

/-- `updateLonghornVolumeState` from longhorn_status.go. -/
def updateLonghornVolumeState (states : List (String × LonghornUnitState))
    (key : String) (hasError : Bool)
    (errorMessage state robustness : String) (capacity actualSize : Int)
    (ns : String) (now : Time) : List (String × LonghornUnitState) :=
  let prev := lookup states key
  let base : LonghornUnitState :=
    { unit := { hasError := hasError, lastSeen := now,
                lastMessage := errorMessage, firstError := 0,
                alertSent := false },
      resourceType := "volume", capacity := capacity, usage := actualSize,
      robustness := robustness, node := "", ns := ns }
  let newState :=
    match prev with
    | none =>
      { base with unit := { base.unit with firstError := now, alertSent := false } }
    | some prevState =>
      if hasError && !prevState.unit.hasError then
        { base with unit := { base.unit with firstError := now, alertSent := false } }
      else if !hasError then
        { base with unit := { base.unit with firstError := 0, alertSent := false } }
      else
        { base with unit := { base.unit with firstError := prevState.unit.firstError,
                                             alertSent := prevState.unit.alertSent } }
  setStore states key newState

/-- `updateLonghornReplicaState` from longhorn_status.go. -/
def updateLonghornReplicaState (states : List (String × LonghornUnitState))
    (key : String) (hasError : Bool) (errorMessage currentState ns : String)
    (now : Time) : List (String × LonghornUnitState) :=
  let prev := lookup states key
  let base : LonghornUnitState :=
    { unit := { hasError := hasError, lastSeen := now,
                lastMessage := errorMessage, firstError := 0,
                alertSent := false },
      resourceType := "replica", capacity := 0, usage := 0,
      robustness := "", node := "", ns := ns }
  let newState :=
    match prev with
    | none =>
      { base with unit := { base.unit with firstError := now, alertSent := false } }
    | some prevState =>
      if hasError && !prevState.unit.hasError then
        { base with unit := { base.unit with firstError := now, alertSent := false } }
      else if !hasError then
        { base with unit := { base.unit with firstError := 0, alertSent := false } }
      else
        { base with unit := { base.unit with firstError := prevState.unit.firstError,
                                             alertSent := prevState.unit.alertSent } }
  setStore states key newState

/-- `updateLonghornEngineState` from longhorn_status.go. -/
def updateLonghornEngineState (states : List (String × LonghornUnitState))
    (key : String) (hasError : Bool) (errorMessage currentState ns : String)
    (now : Time) : List (String × LonghornUnitState) :=
  let prev := lookup states key
  let base : LonghornUnitState :=
    { unit := { hasError := hasError, lastSeen := now,
                lastMessage := errorMessage, firstError := 0,
                alertSent := false },
      resourceType := "engine", capacity := 0, usage := 0,
      robustness := "", node := "", ns := ns }
  let newState :=
    match prev with
    | none =>
      { base with unit := { base.unit with firstError := now, alertSent := false } }
    | some prevState =>
      if hasError && !prevState.unit.hasError then
        { base with unit := { base.unit with firstError := now, alertSent := false } }
      else if !hasError then
        { base with unit := { base.unit with firstError := 0, alertSent := false } }
      else
        { base with unit := { base.unit with firstError := prevState.unit.firstError,
                                             alertSent := prevState.unit.alertSent } }
  setStore states key newState

/-- `updateLonghornNodeState` from longhorn_status.go. -/
def updateLonghornNodeState (states : List (String × LonghornUnitState))
    (key : String) (hasError : Bool) (errorMessage nodeName : String)
    (now : Time) : List (String × LonghornUnitState) :=
  let prev := lookup states key
  let base : LonghornUnitState :=
    { unit := { hasError := hasError, lastSeen := now,
                lastMessage := errorMessage, firstError := 0,
                alertSent := false },
      resourceType := "node", capacity := 0, usage := 0,
      robustness := "", node := nodeName, ns := "" }
  let newState :=
    match prev with
    | none =>
      { base with unit := { base.unit with firstError := now, alertSent := false } }
    | some prevState =>
      if hasError && !prevState.unit.hasError then
        { base with unit := { base.unit with firstError := now, alertSent := false } }
      else if !hasError then
        { base with unit := { base.unit with firstError := 0, alertSent := false } }
      else
        { base with unit := { base.unit with firstError := prevState.unit.firstError,
                                             alertSent := prevState.unit.alertSent } }
  setStore states key newState

/-- `updateLonghornBackupState` from longhorn_status.go. -/
def updateLonghornBackupState (states : List (String × LonghornUnitState))
    (key : String) (hasError : Bool) (errorMessage state ns : String)
    (now : Time) : List (String × LonghornUnitState) :=
  let prev := lookup states key
  let base : LonghornUnitState :=
    { unit := { hasError := hasError, lastSeen := now,
                lastMessage := errorMessage, firstError := 0,
                alertSent := false },
      resourceType := "backup", capacity := 0, usage := 0,
      robustness := "", node := "", ns := ns }
  let newState :=
    match prev with
    | none =>
      { base with unit := { base.unit with firstError := now, alertSent := false } }
    | some prevState =>
      if hasError && !prevState.unit.hasError then
        { base with unit := { base.unit with firstError := now, alertSent := false } }
      else if !hasError then
        { base with unit := { base.unit with firstError := 0, alertSent := false } }
      else
        { base with unit := { base.unit with firstError := prevState.unit.firstError,
                                             alertSent := prevState.unit.alertSent } }
  setStore states key newState

theorem lookup_setStore_self {α : Type} (s : List (String × α)) (k : String)
    (v : α) : lookup (setStore s k v) k = some v := by
  simp [setStore, lookup]

/-- A sample previous GitOps entry used to exercise `updateGitOpsState`. -/
def c2prev : GitOpsState :=
  { unit := { hasError := true, lastSeen := 0, lastMessage := "drift A",
              firstError := 50, alertSent := true },
    repositoryName := "repo", resourceKind := "Deployment",
    resourceName := "app", ns := "default", mismatchType := "different",
    expectedHash := "", actualHash := "" }

/-- C2 counterexample: a healthy GitOps Upsert over an existing erroring
entry whose message text differs stores `firstError = now = 100`, not the
zero timestamp, refuting the claim for the GitOps family. -/
theorem c2_counterexample_gitops_healthy_upsert :
    lookup [("k", c2prev)] "k" = some c2prev ∧
    c2prev.unit.hasError = true ∧ c2prev.unit.lastMessage ≠ "" ∧
    (lookup (updateGitOpsState [("k", c2prev)] "k" false "" "repo"
        "Deployment" "app" "default" "" "" "" 100) "k").map
      (fun s => (s.unit.firstError, s.unit.alertSent)) = some (100, false) ∧
    (100 : Time) ≠ 0 := by
  refine ⟨rfl, rfl, by decide, rfl, by decide⟩

/-- C2 amended: for the pod, node, node-resource and Longhorn families a
healthy Upsert over an existing entry stores `firstError = 0` and
`alertSent = false`.  For the GitOps family this fails: when the previous
entry had `hasError` with a different message text the stored entry gets
`firstError = now` (and `alertSent = false`); with the same message text it
keeps the previous `firstError` and `alertSent`; only when the previous
entry was already healthy does it store `firstError = 0` and
`alertSent = false`. -/
theorem c2_amended_healthy_upsert :
    (∀ states key prev msg (now : Time), lookup states key = some prev →
      (lookup (updatePodState states key false msg now) key).map
        (fun s => (s.firstError, s.alertSent)) = some (0, false))
    ∧ (∀ states key prev msg (now : Time), lookup states key = some prev →
      (lookup (updateNodeState states key false msg now) key).map
        (fun s => (s.firstError, s.alertSent)) = some (0, false))
    ∧ (∀ states key prev msg cap req pct (now : Time),
        lookup states key = some prev →
      (lookup (updateNodeResourceState states key false msg cap req pct now)
          key).map
        (fun s => (s.unit.firstError, s.unit.alertSent)) = some (0, false))
    ∧ (∀ states key prev msg st rob cap sz ns (now : Time),
        lookup states key = some prev →
      (lookup (updateLonghornVolumeState states key false msg st rob cap sz
          ns now) key).map
        (fun s => (s.unit.firstError, s.unit.alertSent)) = some (0, false))
    ∧ (∀ states key prev msg cur ns (now : Time),
        lookup states key = some prev →
      (lookup (updateLonghornReplicaState states key false msg cur ns now)
          key).map
        (fun s => (s.unit.firstError, s.unit.alertSent)) = some (0, false))
    ∧ (∀ states key prev msg cur ns (now : Time),
        lookup states key = some prev →
      (lookup (updateLonghornEngineState states key false msg cur ns now)
          key).map
        (fun s => (s.unit.firstError, s.unit.alertSent)) = some (0, false))
    ∧ (∀ states key prev msg nn (now : Time),
        lookup states key = some prev →
      (lookup (updateLonghornNodeState states key false msg nn now) key).map
        (fun s => (s.unit.firstError, s.unit.alertSent)) = some (0, false))
    ∧ (∀ states key prev msg st ns (now : Time),
        lookup states key = some prev →
      (lookup (updateLonghornBackupState states key false msg st ns now)
          key).map
        (fun s => (s.unit.firstError, s.unit.alertSent)) = some (0, false))
    ∧ (∀ states key prev msg rn rk rsn ns mt eh ah (now : Time),
        lookup states key = some prev → prev.unit.hasError = true →
        prev.unit.lastMessage ≠ msg →
      (lookup (updateGitOpsState states key false msg rn rk rsn ns mt eh ah
          now) key).map
        (fun s => (s.unit.firstError, s.unit.alertSent)) = some (now, false))
    ∧ (∀ states key prev msg rn rk rsn ns mt eh ah (now : Time),
        lookup states key = some prev → prev.unit.hasError = true →
        prev.unit.lastMessage = msg →
      (lookup (updateGitOpsState states key false msg rn rk rsn ns mt eh ah
          now) key).map
        (fun s => (s.unit.firstError, s.unit.alertSent)) =
        some (prev.unit.firstError, prev.unit.alertSent))
    ∧ (∀ states key prev msg rn rk rsn ns mt eh ah (now : Time),
        lookup states key = some prev → prev.unit.hasError = false →
      (lookup (updateGitOpsState states key false msg rn rk rsn ns mt eh ah
          now) key).map
        (fun s => (s.unit.firstError, s.unit.alertSent)) = some (0, false)) := by
  refine ⟨?_, ?_, ?_, ?_, ?_, ?_, ?_, ?_, ?_, ?_, ?_⟩ <;>
    intro states key prev msg
  · intro now h
    simp [updatePodState, h, lookup_setStore_self]
  · intro now h
    simp [updateNodeState, h, lookup_setStore_self]
  · intro cap req pct now h
    simp [updateNodeResourceState, h, lookup_setStore_self]
  · intro st rob cap sz ns now h
    simp [updateLonghornVolumeState, h, lookup_setStore_self]
  · intro cur ns now h
    simp [updateLonghornReplicaState, h, lookup_setStore_self]
  · intro cur ns now h
    simp [updateLonghornEngineState, h, lookup_setStore_self]
  · intro nn now h
    simp [updateLonghornNodeState, h, lookup_setStore_self]
  · intro st ns now h
    simp [updateLonghornBackupState, h, lookup_setStore_self]
  · intro rn rk rsn ns mt eh ah now h hE hM
    simp [updateGitOpsState, h, hE, hM, lookup_setStore_self]
  · intro rn rk rsn ns mt eh ah now h hE hM
    simp [updateGitOpsState, h, hE, hM, lookup_setStore_self]
  · intro rn rk rsn ns mt eh ah now h hE
    simp [updateGitOpsState, h, hE, lookup_setStore_self]

/-- A sample previous pod entry for the C2 witness. -/
def c2podPrev : UnitState :=
  { hasError := true, lastSeen := 0, lastMessage := "Container c has failed",
    firstError := 40, alertSent := true }

theorem c2_amended_witness :
    (lookup (updatePodState [("ns/p", c2podPrev)] "ns/p" false "" 100)
        "ns/p").map (fun s => (s.firstError, s.alertSent)) = some (0, false)
    ∧ (lookup (updateGitOpsState [("k", c2prev)] "k" false "" "repo"
        "Deployment" "app" "default" "" "" "" 100) "k").map
      (fun s => (s.unit.firstError, s.unit.alertSent)) = some (100, false)
    ∧ (lookup (updateGitOpsState [("k", c2prev)] "k" false "drift A" "repo"
        "Deployment" "app" "default" "" "" "" 100) "k").map
      (fun s => (s.unit.firstError, s.unit.alertSent)) = some (50, true) := by
  obtain ⟨hp, -, -, -, -, -, -, -, g1, g2, -⟩ := c2_amended_healthy_upsert
  refine ⟨hp [("ns/p", c2podPrev)] "ns/p" c2podPrev "" 100 rfl, ?_, ?_⟩
  · exact g1 [("k", c2prev)] "k" c2prev "" "repo" "Deployment" "app"
      "default" "" "" "" 100 rfl rfl (by decide)
  · exact g2 [("k", c2prev)] "k" c2prev "drift A" "repo" "Deployment" "app"
      "default" "" "" "" 100 rfl rfl rfl

/-- C3 counterexample: the first Upsert for a pod key with `hasError =
false` stores `firstError = now = 100`, not the zero timestamp, refuting
the claim (the same insert branch sets `firstError = now` in every
family). -/
theorem c3_counterexample_first_insert :
    lookup ([] : List (String × UnitState)) "ns/p" = none ∧
    (lookup (updatePodState [] "ns/p" false "" 100) "ns/p").map
      (fun s => (s.firstError, s.alertSent)) = some (100, false) ∧
    (100 : Time) ≠ 0 := ⟨rfl, rfl, by decide⟩

/-- C3 amended: for every family, the first Upsert for a key with no
previous entry inserts an entry with `firstError` equal to the current
time — regardless of `hasError` — and `alertSent = false`. -/
theorem c3_amended_first_insert :
    (∀ states key hasError msg (now : Time), lookup states key = none →
      (lookup (updatePodState states key hasError msg now) key).map
        (fun s => (s.firstError, s.alertSent)) = some (now, false))
    ∧ (∀ states key hasError msg (now : Time), lookup states key = none →
      (lookup (updateNodeState states key hasError msg now) key).map
        (fun s => (s.firstError, s.alertSent)) = some (now, false))
    ∧ (∀ states key hasError msg cap req pct (now : Time),
        lookup states key = none →
      (lookup (updateNodeResourceState states key hasError msg cap req pct
          now) key).map
        (fun s => (s.unit.firstError, s.unit.alertSent)) = some (now, false))
    ∧ (∀ states key hasError msg rn rk rsn ns mt eh ah (now : Time),
        lookup states key = none →
      (lookup (updateGitOpsState states key hasError msg rn rk rsn ns mt eh
          ah now) key).map
        (fun s => (s.unit.firstError, s.unit.alertSent)) = some (now, false))
    ∧ (∀ states key hasError msg st rob cap sz ns (now : Time),
        lookup states key = none →
      (lookup (updateLonghornVolumeState states key hasError msg st rob cap
          sz ns now) key).map
        (fun s => (s.unit.firstError, s.unit.alertSent)) = some (now, false))
    ∧ (∀ states key hasError msg cur ns (now : Time),
        lookup states key = none →
      (lookup (updateLonghornReplicaState states key hasError msg cur ns
          now) key).map
        (fun s => (s.unit.firstError, s.unit.alertSent)) = some (now, false))
    ∧ (∀ states key hasError msg cur ns (now : Time),
        lookup states key = none →
      (lookup (updateLonghornEngineState states key hasError msg cur ns
          now) key).map
        (fun s => (s.unit.firstError, s.unit.alertSent)) = some (now, false))
    ∧ (∀ states key hasError msg nn (now : Time),
        lookup states key = none →
      (lookup (updateLonghornNodeState states key hasError msg nn now)
          key).map
        (fun s => (s.unit.firstError, s.unit.alertSent)) = some (now, false))
    ∧ (∀ states key hasError msg st ns (now : Time),
        lookup states key = none →
      (lookup (updateLonghornBackupState states key hasError msg st ns now)
          key).map
        (fun s => (s.unit.firstError, s.unit.alertSent)) = some (now, false)) := by
  refine ⟨?_, ?_, ?_, ?_, ?_, ?_, ?_, ?_, ?_⟩ <;>
    intro states key hasError msg
  · intro now h
    simp [updatePodState, h, lookup_setStore_self]
  · intro now h
    simp [updateNodeState, h, lookup_setStore_self]
  · intro cap req pct now h
    simp [updateNodeResourceState, h, lookup_setStore_self]
  · intro rn rk rsn ns mt eh ah now h
    simp [updateGitOpsState, h, lookup_setStore_self]
  · intro st rob cap sz ns now h
    simp [updateLonghornVolumeState, h, lookup_setStore_self]
  · intro cur ns now h
    simp [updateLonghornReplicaState, h, lookup_setStore_self]
  · intro cur ns now h
    simp [updateLonghornEngineState, h, lookup_setStore_self]
  · intro nn now h
    simp [updateLonghornNodeState, h, lookup_setStore_self]
  · intro st ns now h
    simp [updateLonghornBackupState, h, lookup_setStore_self]

theorem c3_amended_witness :
    (lookup (updatePodState [] "ns/p" true "boom" 7) "ns/p").map
      (fun s => (s.firstError, s.alertSent)) = some (7, false)
    ∧ (lookup (updateLonghornVolumeState [] "ns/v" false "" "attached"
        "healthy" 0 0 "ns" 7) "ns/v").map
      (fun s => (s.unit.firstError, s.unit.alertSent)) = some (7, false) := by
  obtain ⟨hp, -, -, -, hv, -, -, -, -⟩ := c3_amended_first_insert
  exact ⟨hp [] "ns/p" true "boom" 7 rfl,
    hv [] "ns/v" false "" "attached" "healthy" 0 0 "ns" 7 rfl⟩

/-- A sample previous GitOps entry (error, alert sent) for C5. -/
def c5prev : GitOpsState :=
  { unit := { hasError := true, lastSeen := 0, lastMessage := "drift A",
              firstError := 50, alertSent := true },
    repositoryName := "repo", resourceKind := "Deployment",
    resourceName := "app", ns := "default", mismatchType := "different",
    expectedHash := "", actualHash := "" }

/-- C5: for a GitOps key whose previous entry has `hasError`, an Upsert
that keeps `hasError = true` with a different message text resets
`firstError = now` and `alertSent = false`, while the same message text
keeps the previous `firstError` and `alertSent`. -/
theorem gitops_message_change_resets (states : List (String × GitOpsState))
    (key msg rn rk rsn ns mt eh ah : String) (prev : GitOpsState)
    (now : Time) (h : lookup states key = some prev)
    (hE : prev.unit.hasError = true) :
    (prev.unit.lastMessage ≠ msg →
      (lookup (updateGitOpsState states key true msg rn rk rsn ns mt eh ah
          now) key).map
        (fun s => (s.unit.firstError, s.unit.alertSent)) = some (now, false))
    ∧ (prev.unit.lastMessage = msg →
      (lookup (updateGitOpsState states key true msg rn rk rsn ns mt eh ah
          now) key).map
        (fun s => (s.unit.firstError, s.unit.alertSent)) =
        some (prev.unit.firstError, prev.unit.alertSent)) := by
  constructor <;> intro hM <;>
    simp [updateGitOpsState, h, hE, hM, lookup_setStore_self]

theorem gitops_message_change_resets_witness :
    (lookup (updateGitOpsState [("k", c5prev)] "k" true "drift B" "repo"
        "Deployment" "app" "default" "different" "" "" 100) "k").map
      (fun s => (s.unit.firstError, s.unit.alertSent)) = some (100, false)
    ∧ (lookup (updateGitOpsState [("k", c5prev)] "k" true "drift A" "repo"
        "Deployment" "app" "default" "different" "" "" 100) "k").map
      (fun s => (s.unit.firstError, s.unit.alertSent)) = some (50, true) :=
  ⟨(gitops_message_change_resets [("k", c5prev)] "k" "drift B" "repo"
      "Deployment" "app" "default" "different" "" "" c5prev 100 rfl rfl).1
      (by decide),
   (gitops_message_change_resets [("k", c5prev)] "k" "drift A" "repo"
      "Deployment" "app" "default" "different" "" "" c5prev 100 rfl rfl).2
      rfl⟩

/-- `markLonghornAlertSent("volume", key)` from longhorn.go, restricted to
the volume store. -/
def markLonghornVolumeAlertSent (states : List (String × LonghornUnitState))
    (key : String) : List (String × LonghornUnitState) :=
  match lookup states key with
  | none => states
  | some s => setStore states key
      { s with unit := { s.unit with alertSent := true } }

/-- `checkLonghornVolumeRecovery` from longhorn_alerts.go: reads the volume
state and sends a "Longhorn Volume Recovery" alert when the stored entry
has `hasError` and `alertSent`.  Emitted alerts are modelled by their
titles. -/
def checkLonghornVolumeRecovery (states : List (String × LonghornUnitState))
    (key : String) : List String :=
  match lookup states key with
  | none => []
  | some prevState =>
    if prevState.unit.hasError && prevState.unit.alertSent then
      ["Longhorn Volume Recovery"]
    else []

/-- `processLonghornVolumeStatus` from longhorn_status.go: classifies the
volume, updates the volume state map, then either sends an error alert or
— on a healthy status — runs the recovery check.  Returns the new volume
state map and the titles of the alerts emitted.  Note the source calls
`updateLonghornVolumeState` *before* `checkLonghornVolumeRecovery`, so the
recovery check reads the already-updated map.  The float usage-percentage
comparison is modelled with exact rationals; the numeric text inside the
threshold messages is not reproduced (no logic reads it). -/
def processLonghornVolumeStatus (cfg : Config) (now : Time)
    (states : List (String × LonghornUnitState))
    (name ns state robustness : String) (capacity actualSize : Int) :
    List (String × LonghornUnitState) × List String :=
  let key := ns ++ "/" ++ name
  let classified : Bool × String × String :=
    if state = "detached" || state = "attached" then
      if robustness = "healthy" then (false, "", "")
      else if robustness = "degraded" then
        (true, "Volume is degraded", "degraded")
      else if robustness = "faulted" then
        (true, "Volume is faulted", "faulted")
      else (false, "", "")
    else if state = "creating" || state = "attaching" ||
        state = "detaching" then (false, "", "")
    else (true, "Volume in unknown state: " ++ state, "unknown_state")
  let withThresholds : Bool × String × String :=
    if capacity > 0 && actualSize > 0 then
      let usagePercent : ℚ := (actualSize : ℚ) / (capacity : ℚ) * 100
      let remaining := capacity - actualSize
      if usagePercent > cfg.longhorn.volumeUsagePercent then
        (true, "Volume usage critical", "usage_critical")
      else if remaining < cfg.longhorn.volumeCapacityCritical then
        (true, "Volume capacity critical", "capacity_critical")
      else classified
    else classified
  let hasError := withThresholds.1
  let errorMessage := withThresholds.2.1
  let alertType := withThresholds.2.2
  let states1 := updateLonghornVolumeState states key hasError errorMessage
    state robustness capacity actualSize ns now
  if hasError &&
      shouldSendLonghornAlert cfg now ⟨states1, [], [], [], []⟩ .volume key then
    (markLonghornVolumeAlertSent states1 key,
      ["Longhorn Volume Alert on " ++ ns ++ ":" ++ alertType])
  else if !hasError then
    (states1, checkLonghornVolumeRecovery states1 key)
  else (states1, [])

/-- The previous volume entry for C4: erroring, alert already sent. -/
def c4prev : LonghornUnitState :=
  { unit := { hasError := true, lastSeen := 0,
              lastMessage := "Volume is degraded", firstError := 10,
              alertSent := true },
    resourceType := "volume", capacity := 0, usage := 0,
    robustness := "degraded", node := "", ns := "ns" }

/-- The configuration used in the C4 run (thresholds at their defaults). -/
def c4cfg : Config :=
  { interval := 3,
    gitops := { enabled := false, alertOnMismatch := true,
                repositories := [] },
    longhorn := { volumeUsagePercent := 85, volumeCapacityCritical := 1073741824 } }

/-- C4: the stored volume state has `hasError` and `alertSent`, the update
is healthy (`attached`/`healthy`, thresholds not exceeded), yet
`processLonghornVolumeStatus` emits no recovery alert: the Upsert runs
first and clears the flags, so the recovery check — which the spec places
before the Upsert — never fires. -/
theorem longhorn_recovery_never_fires :
    lookup [("ns/vol", c4prev)] "ns/vol" = some c4prev ∧
    c4prev.unit.hasError = true ∧ c4prev.unit.alertSent = true ∧
    (processLonghornVolumeStatus c4cfg 100 [("ns/vol", c4prev)] "vol" "ns"
        "attached" "healthy" 0 0).2 = [] := by
  refine ⟨rfl, rfl, rfl, ?_⟩
  decide

/-- JSON values, modelling the `map[string]interface\x7b\x7d` trees inside
`unstructured.Unstructured`.  Numbers are modelled as integers (no claim
depends on numeric content). -/
inductive Json where
  | null : Json
  | bool (b : Bool) : Json
  | num (n : Int) : Json
  | str (s : String) : Json
  | arr (elems : List Json) : Json
  | obj (fields : List (String × Json)) : Json
deriving Repr

mutual

/-- Structural equality of JSON values. -/
def Json.beq : Json → Json → Bool
  | .null, .null => true
  | .bool b, .bool c => b = c
  | .num n, .num m => n = m
  | .str s, .str t => s = t
  | .arr xs, .arr ys => Json.beqList xs ys
  | .obj fs, .obj gs => Json.beqFields fs gs
  | _, _ => false

def Json.beqList : List Json → List Json → Bool
  | [], [] => true
  | x :: xs, y :: ys => Json.beq x y && Json.beqList xs ys
  | _, _ => false

def Json.beqFields : List (String × Json) → List (String × Json) → Bool
  | [], [] => true
  | (k, v) :: fs, (l, w) :: gs => k = l && Json.beq v w && Json.beqFields fs gs
  | _, _ => false

end

/-- Insert a keyed pair into a key-sorted list (insertion sort step). -/
def insertByKey {α : Type} (p : String × α) :
    List (String × α) → List (String × α)
  | [] => [p]
  | q :: rest =>
    if p.1 ≤ q.1 then p :: q :: rest else q :: insertByKey p rest

/-- Sort a keyed list by key: models the deterministic key order of Go's
`json.Marshal` on maps. -/
def sortByKey {α : Type} : List (String × α) → List (String × α)
  | [] => []
  | p :: rest => insertByKey p (sortByKey rest)

mutual

/-- Canonical form of a JSON value: object keys sorted at every level, as
`json.Marshal` renders Go maps.  Equality of canonical forms models
equality of the marshalled strings. -/
def Json.canon : Json → Json
  | .null => .null
  | .bool b => .bool b
  | .num n => .num n
  | .str s => .str s
  | .arr xs => .arr (Json.canonList xs)
  | .obj fs => .obj (sortByKey (Json.canonFields fs))

def Json.canonList : List Json → List Json
  | [] => []
  | x :: xs => x.canon :: Json.canonList xs

def Json.canonFields : List (String × Json) → List (String × Json)
  | [] => []
  | (k, v) :: fs => (k, v.canon) :: Json.canonFields fs

end

/-- Marshalled-JSON equality of two Go maps/values:
`string(json.Marshal(a)) == string(json.Marshal(b))`. -/
def jsonCanonEq (a b : Json) : Bool := Json.beq a.canon b.canon

/-- `unstructured.NestedMap(obj, key)`'s found flag and value: the key must
be present and its value must be a JSON object. -/
def nestedMapField (j : Json) (key : String) : Option (List (String × Json)) :=
  match j with
  | .obj fs =>
    match lookup fs key with
    | some (.obj m) => some m
    | _ => none
  | _ => none

/-- All fields hold strings (the conversion inside
`unstructured.NestedStringMap`); fails otherwise. -/
def allStringFields : List (String × Json) → Option (List (String × String))
  | [] => some []
  | (k, .str v) :: rest => (allStringFields rest).map (fun l => (k, v) :: l)
  | _ => none

/-- `unstructured.NestedStringMap(m, key)`: present, an object, and all
values strings; the callers ignore the flag, so a failure reads as the nil
(empty) map. -/
def nestedStringMapField (fs : List (String × Json)) (key : String) :
    Option (List (String × String)) :=
  match lookup fs key with
  | some (.obj m) => allStringFields m
  | _ => none

/-- The four system-managed label keys skipped by `cleanLabels`. -/
def systemLabelKeys : List String :=
  ["app.kubernetes.io/managed-by", "helm.sh/chart",
   "app.kubernetes.io/instance", "app.kubernetes.io/version"]

/-- The four system-managed annotation keys skipped by `cleanAnnotations`. -/
def systemAnnotationKeys : List String :=
  ["kubectl.kubernetes.io/last-applied-configuration",
   "deployment.kubernetes.io/revision", "meta.helm.sh/release-name",
   "meta.helm.sh/release-namespace"]

/-- `cleanLabels` from resourcesEqual. -/
def cleanLabels (labels : List (String × String)) : List (String × String) :=
  labels.filter (fun p => !systemLabelKeys.contains p.1)

/-- `cleanAnnotations` from resourcesEqual. -/
def cleanAnnotations (annotations : List (String × String)) :
    List (String × String) :=
  annotations.filter (fun p => !systemAnnotationKeys.contains p.1)

/-- Marshalled equality of two `map[string]string` values. -/
def stringMapEq (a b : List (String × String)) : Bool :=
  sortByKey a = sortByKey b

/-- `resourcesEqual` from gitops_compare.go. -/
def resourcesEqual (dryRunResult actual : Option Json) : Bool :=
  match dryRunResult, actual with
  | none, none => true
  | none, some _ => false
  | some _, none => false
  | some d, some a =>
    let dSpec := nestedMapField d "spec"
    let aSpec := nestedMapField a "spec"
    if dSpec.isSome != aSpec.isSome then false
    else
      let specOk :=
        match dSpec, aSpec with
        | some dm, some am => jsonCanonEq (.obj dm) (.obj am)
        | _, _ => true
      if !specOk then false
      else
        match nestedMapField d "metadata", nestedMapField a "metadata" with
        | some dm, some am =>
          let dl := cleanLabels ((nestedStringMapField dm "labels").getD [])
          let al := cleanLabels ((nestedStringMapField am "labels").getD [])
          if !stringMapEq dl al then false
          else
            let da := cleanAnnotations
              ((nestedStringMapField dm "annotations").getD [])
            let aa := cleanAnnotations
              ((nestedStringMapField am "annotations").getD [])
            if !stringMapEq da aa then false else true
        | _, _ => true

/-- The claim's reading of `resourcesEqual`, written from the claim's
words: spec subtrees canonically equal (both absent equal, one absent
unequal) AND cleaned labels AND cleaned annotations equal — with no
both-metadata-present guard. -/
def claimResourcesEqualSpec (d a : Json) : Bool :=
  let specOk :=
    match nestedMapField d "spec", nestedMapField a "spec" with
    | none, none => true
    | some dm, some am => jsonCanonEq (.obj dm) (.obj am)
    | _, _ => false
  let labelsOf (j : Json) : List (String × String) :=
    match nestedMapField j "metadata" with
    | some m => cleanLabels ((nestedStringMapField m "labels").getD [])
    | none => []
  let annotationsOf (j : Json) : List (String × String) :=
    match nestedMapField j "metadata" with
    | some m => cleanAnnotations ((nestedStringMapField m "annotations").getD [])
    | none => []
  specOk && stringMapEq (labelsOf d) (labelsOf a) &&
    stringMapEq (annotationsOf d) (annotationsOf a)

/-- Dry-run object with no metadata at all. -/
def c6dry : Json := .obj []

/-- Live object carrying one non-system label. -/
def c6act : Json :=
  .obj [("metadata", .obj [("labels", .obj [("a", .str "1")])])]

/-- C6 counterexample: when one object has no metadata map the code skips
the label/annotation comparison entirely and returns equal, while the
claim's condition (cleaned labels equal: \x7b\x7d vs \x7ba:1\x7d) is
false, so the claimed iff fails at this input. -/
theorem resourcesEqual_claim_counterexample :
    ¬ (resourcesEqual (some c6dry) (some c6act) = true ↔
        claimResourcesEqualSpec c6dry c6act = true) := by
  decide

/-- The amended reading: the labels/annotations clause only applies when
both objects carry a metadata object. -/
def amendedResourcesEqualSpec (d a : Json) : Bool :=
  let specOk :=
    match nestedMapField d "spec", nestedMapField a "spec" with
    | none, none => true
    | some dm, some am => jsonCanonEq (.obj dm) (.obj am)
    | _, _ => false
  let metaOk :=
    match nestedMapField d "metadata", nestedMapField a "metadata" with
    | some dm, some am =>
      stringMapEq (cleanLabels ((nestedStringMapField dm "labels").getD []))
          (cleanLabels ((nestedStringMapField am "labels").getD [])) &&
        stringMapEq
          (cleanAnnotations ((nestedStringMapField dm "annotations").getD []))
          (cleanAnnotations ((nestedStringMapField am "annotations").getD []))
    | _, _ => true
  specOk && metaOk

/-- C6 amended: `resourcesEqual` returns true iff the spec subtrees are
canonically equal (both absent equal, exactly one absent unequal) and —
only when both objects have a `metadata` object — the cleaned label and
annotation maps are equal.  Both sides are functions of those projections
alone, so no other field influences the result. -/
theorem resourcesEqual_characterization (d a : Json) :
    resourcesEqual (some d) (some a) = amendedResourcesEqualSpec d a := by
  unfold resourcesEqual amendedResourcesEqualSpec
  cases hds : nestedMapField d "spec" <;> cases has : nestedMapField a "spec" <;>
    cases hdm : nestedMapField d "metadata" <;>
      cases ham : nestedMapField a "metadata" <;>
        simp only [hds, has, hdm, ham] <;>
          (repeat' split) <;> simp_all

/-- Outcome of the cluster GET in `compareManifestWithCluster`. -/
inductive GetResult where
  | ok (obj : Json)
  | notFound
  | err
deriving Repr

/-- Outcome of the server-side apply dry-run in `resourcesAreDifferent`. -/
inductive ApplyResult where
  | ok (obj : Json)
  | failed
deriving Repr

/-- What `compareManifestWithCluster` does with a manifest: return an
error, record a mismatch of the given type (`processGitOpsMismatch`, the
only path that can emit a drift alert), or record a match
(`processGitOpsMatch`). -/
inductive CompareOutcome where
  | errorOut
  | mismatch (t : String)
  | matched
deriving Repr, DecidableEq

/-- `resourcesAreDifferent` from gitops_compare.go, with the two external
calls (GVR resolution, dry-run apply) as parameters: on either failure it
returns false ("assume no difference to avoid false positives"). -/
def resourcesAreDifferent (gvrOk : Bool) (applyResult : ApplyResult)
    (actual : Json) : Bool :=
  if !gvrOk then false
  else
    match applyResult with
    | .failed => false
    | .ok result => !resourcesEqual (some result) (some actual)

/-- `compareManifestWithCluster` from gitops_compare.go, with the external
calls as parameters: GVR failure returns an error; a not-found GET records
a "missing" mismatch; otherwise the dry-run comparison decides between a
"different" mismatch and a match. -/
def compareManifestWithCluster (gvrOk : Bool) (getResult : GetResult)
    (applyResult : ApplyResult) : CompareOutcome :=
  if !gvrOk then .errorOut
  else
    match getResult with
    | .notFound => .mismatch "missing"
    | .err => .errorOut
    | .ok actual =>
      if resourcesAreDifferent gvrOk applyResult actual then
        .mismatch "different"
      else .matched

/-- C7: when the dry-run apply fails or the kind's GVR cannot be resolved,
the resource is treated as equal (`resourcesAreDifferent` is false) and
`compareManifestWithCluster` never records a "different" mismatch — hence
no drift alert, which only `processGitOpsMismatch` can emit. -/
theorem dryrun_failure_no_drift (gvrOk : Bool) (getResult : GetResult)
    (applyResult : ApplyResult)
    (h : gvrOk = false ∨ applyResult = ApplyResult.failed) :
    (∀ actual, resourcesAreDifferent gvrOk applyResult actual = false) ∧
    compareManifestWithCluster gvrOk getResult applyResult ≠
      CompareOutcome.mismatch "different" := by
  constructor
  · intro actual
    rcases h with h | h <;> subst h
    · simp [resourcesAreDifferent]
    · cases gvrOk <;> simp [resourcesAreDifferent]
  · rcases h with h | h <;> subst h
    · simp [compareManifestWithCluster]
    · cases getResult <;>
        simp [compareManifestWithCluster, resourcesAreDifferent] <;>
        cases gvrOk <;> simp
theorem dryrun_failure_no_drift_witness :
    (∀ actual,
      resourcesAreDifferent true ApplyResult.failed actual = false) ∧
    compareManifestWithCluster true (GetResult.ok (Json.obj []))
      ApplyResult.failed ≠ CompareOutcome.mismatch "different" :=
  dryrun_failure_no_drift true (GetResult.ok (Json.obj []))
    ApplyResult.failed (Or.inr rfl)

/-- An alert field (`Alert.Fields` element). -/
structure AlertField where
  name   : String
  value  : String
  inline : Bool
deriving Repr, DecidableEq

/-- `Alert` from the source. -/
structure Alert where
  title       : String
  description : String
  fields      : List AlertField
  logs        : String
deriving Repr, DecidableEq

/-- One field rendered by the `fmt.Sprintf` inside `sendWebhookMessage`. -/
def fieldJSON (f : AlertField) : String :=
  "\x7b\"name\":\"" ++ f.name ++ "\",\"value\":\"" ++ f.value ++
    "\",\"inline\":" ++ (if f.inline then "true" else "false") ++ "\x7d"

/-- The `fieldsJSON` string built by `sendWebhookMessage`, including the
Container Logs splice. -/
def fieldsJSONOf (fields : List AlertField) (logs : String) : String :=
  let base := "[" ++ String.intercalate "," (fields.map fieldJSON) ++ "]"
  if logs ≠ "" then
    base.dropRight 1 ++
      ",\x7b\"name\":\"Container Logs\",\"value\":\"" ++ logs ++
      "\",\"inline\":false\x7d]"
  else base

/-- The green-state test of `sendWebhookMessage`'s loop. -/
def alertIsGreen (fields : List AlertField) : Bool :=
  fields.any (fun f =>
    (f.name = "State" && (f.value = "Running" || f.value = "Completed")) ||
    (f.name = "Status" && f.value = "✅ In Sync"))

/-- The `jsonPayload` string `sendWebhookMessage` posts, byte for byte
(timestamp and version are parameters; the Go template's literal newlines
and tabs are reproduced). -/
def buildWebhookPayload (alert : Alert) (timestamp version : String) :
    String :=
  let green := alertIsGreen alert.fields
  let color : Nat := if green then 65280 else 16711680
  let emoji : String := if green then "🟢" else "🔴"
  let title := emoji ++ " " ++ alert.title
  let fieldsJSON := fieldsJSONOf alert.fields alert.logs
  "\x7b\n\t\t\"embeds\": [\x7b\n\t\t\t\"title\": \"" ++ title ++
    "\",\n\t\t\t\"description\": \"" ++ alert.description ++
    "\",\n\t\t\t\"color\": " ++ toString color ++
    ",\n\t\t\t\"fields\": " ++ fieldsJSON ++
    ",\n\t\t\t\"timestamp\": \"" ++ timestamp ++
    "\",\n\t\t\t\"footer\": \x7b\n\t\t\t\t\"text\": \"sun v" ++ version ++
    "\",\n\t\t\t\t\"icon_url\": \"https://avatars.githubusercontent.com/u/221393700\"\n\t\t\t\x7d\n\t\t\x7d]\n\t\x7d"

/-- `sendWebhookMessage` from main.go: reads `isLeader` and returns before
building anything when it is false; otherwise it builds `jsonPayload` and
posts it.  The returned value is the body of the HTTP POST, `none` when no
request is attempted. -/
def sendWebhookMessage (isLeader : Bool) (alert : Alert)
    (timestamp version : String) : Option String :=
  if !isLeader then none
  else some (buildWebhookPayload alert timestamp version)

/-- C8: when the process-wide `isLeader` flag is false,
`sendWebhookMessage` performs no HTTP POST for any alert — it returns
before building the request. -/
theorem sendWebhookMessage_not_leader (alert : Alert)
    (timestamp version : String) :
    sendWebhookMessage false alert timestamp version = none := rfl

/-! A small JSON well-formedness checker (RFC 8259 grammar, permissive on
number syntax), used to state that a produced webhook body is not
well-formed JSON.  It is deliberately *complete*: every well-formed JSON
document is accepted, so a `false` verdict means the text is not JSON. -/

/-- The `U+007B` character. -/
def openBraceChar : Char := Char.ofNat 123

/-- The `U+007D` character. -/
def closeBraceChar : Char := Char.ofNat 125

/-- Drop insignificant JSON whitespace. -/
def skipWs : List Char → List Char
  | [] => []
  | c :: cs =>
    if c = ' ' || c = '\t' || c = '\n' || c = '\r' then skipWs cs
    else c :: cs

/-- Hexadecimal digit test for `\u` escapes. -/
def isHexDigitChar (c : Char) : Bool :=
  c.isDigit || ('a' ≤ c && c ≤ 'f') || ('A' ≤ c && c ≤ 'F')

/-- Characters a (permissively scanned) number may contain. -/
def isNumChar (c : Char) : Bool :=
  c.isDigit || c = '-' || c = '+' || c = '.' || c = 'e' || c = 'E'

/-- Scan a JSON string body after the opening quote; returns the remainder
after the closing quote.  Escapes are validated; unescaped control
characters are rejected. -/
def scanStringRest : List Char → Option (List Char)
  | [] => none
  | '"' :: cs => some cs
  | '\\' :: 'u' :: a :: b :: c :: d :: cs =>
    if isHexDigitChar a && isHexDigitChar b && isHexDigitChar c &&
        isHexDigitChar d then scanStringRest cs
    else none
  | '\\' :: e :: cs =>
    if e = '"' || e = '\\' || e = '/' || e = 'b' || e = 'f' || e = 'n' ||
        e = 'r' || e = 't' then scanStringRest cs
    else none
  | c :: cs => if 32 ≤ c.toNat then scanStringRest cs else none

/-- Recursive-descent modes of the JSON checker. -/
inductive PMode where
  | value
  | objectBody
  | members
  | arrayBody
  | elements

/-- One fuel-indexed parser for all five grammar productions; returns the
unconsumed remainder.  Structural recursion on the fuel, so it reduces in
the kernel. -/
def parseJson : Nat → PMode → List Char → Option (List Char)
  | 0, _, _ => none
  | Nat.succ fuel, mode, cs =>
    match mode with
    | .value =>
      match skipWs cs with
      | [] => none
      | c :: rest =>
        if c = '"' then scanStringRest rest
        else if c = openBraceChar then parseJson fuel .objectBody rest
        else if c = '[' then parseJson fuel .arrayBody rest
        else if c = 't' then
          match rest with
          | 'r' :: 'u' :: 'e' :: rest2 => some rest2
          | _ => none
        else if c = 'f' then
          match rest with
          | 'a' :: 'l' :: 's' :: 'e' :: rest2 => some rest2
          | _ => none
        else if c = 'n' then
          match rest with
          | 'u' :: 'l' :: 'l' :: rest2 => some rest2
          | _ => none
        else if c.isDigit || c = '-' then
          some ((c :: rest).dropWhile isNumChar)
        else none
    | .objectBody =>
      match skipWs cs with
      | [] => none
      | c :: rest =>
        if c = closeBraceChar then some rest
        else parseJson fuel .members (c :: rest)
    | .members =>
      match skipWs cs with
      | '"' :: rest =>
        match scanStringRest rest with
        | none => none
        | some afterKey =>
          match skipWs afterKey with
          | ':' :: afterColon =>
            match parseJson fuel .value afterColon with
            | none => none
            | some afterVal =>
              match skipWs afterVal with
              | ',' :: nxt => parseJson fuel .members nxt
              | c :: nxt => if c = closeBraceChar then some nxt else none
              | [] => none
          | _ => none
      | _ => none
    | .arrayBody =>
      match skipWs cs with
      | [] => none
      | c :: rest =>
        if c = ']' then some rest
        else parseJson fuel .elements (c :: rest)
    | .elements =>
      match parseJson fuel .value cs with
      | none => none
      | some afterVal =>
        match skipWs afterVal with
        | ',' :: nxt => parseJson fuel .elements nxt
        | ']' :: nxt => some nxt
        | _ => none

/-- A text is well-formed JSON iff one value parses and only whitespace
remains. -/
def isValidJson (s : String) : Bool :=
  match parseJson (2 * s.length + 4) .value s.toList with
  | some rest => skipWs rest = ([] : List Char)
  | none => false

set_option maxRecDepth 100000 in
/-- Sanity check: a payload whose interpolated parts contain no special
characters is well-formed, so the checker is not vacuously rejecting. -/
theorem buildWebhookPayload_benign_valid :
    isValidJson (buildWebhookPayload
      { title := "Pod Failure on default", description := "crash",
        fields := [{ name := "State", value := "Running", inline := true }],
        logs := "" } "2026-01-01T00:00:00Z" "0.1.4") = true := by decide

/-- The C10 alert: its title contains a double-quote character. -/
def c10alert : Alert :=
  { title := "a\"b", description := "", fields := [], logs := "" }

set_option maxRecDepth 100000 in
/-- C10: the webhook body is built by direct string interpolation with no
JSON escaping, so for this alert — whose title contains a double-quote —
`sendWebhookMessage` produces a POST body that is not well-formed JSON. -/
theorem webhook_payload_malformed_json :
    c10alert.title.toList.contains '"' = true ∧
    sendWebhookMessage true c10alert "2026-01-01T00:00:00Z" "0.1.4" =
      some (buildWebhookPayload c10alert "2026-01-01T00:00:00Z" "0.1.4") ∧
    isValidJson
      (buildWebhookPayload c10alert "2026-01-01T00:00:00Z" "0.1.4") =
      false := by
  refine ⟨by decide, rfl, by decide⟩

/-- A file seen by `filepath.Walk`: its directory, base name and
contents. -/
structure FileEntry where
  dir     : String
  name    : String
  content : String
deriving Repr, DecidableEq

/-- The `os.Stat(envPath)` check: does the tree already hold a `.env` in
this directory? -/
def hasEnvSibling (l : List FileEntry) (dir : String) : Bool :=
  l.any (fun g => g.dir = dir && g.name = ".env")

/-- The `.env` file written from a `.env.example` (same directory, same
contents). -/
def mkEnv (f : FileEntry) : FileEntry :=
  { dir := f.dir, name := ".env", content := f.content }

/-- The new `.env` files one run of `copyEnvExampleFiles` creates: one per
`.env.example` whose directory has no `.env` yet. -/
def newEnvFiles (fs : List FileEntry) : List FileEntry :=
  (fs.filter (fun f =>
      f.name = ".env.example" && !hasEnvSibling fs f.dir)).map mkEnv

/-- `copyEnvExampleFiles` from gitops_kustomize.go as a transformation of
the directory tree: for every `.env.example` with no sibling `.env`,
create the sibling `.env` with the same contents; existing files are never
touched. -/
def copyEnvExampleFiles (fs : List FileEntry) : List FileEntry :=
  fs ++ newEnvFiles fs

theorem hasEnvSibling_append (l1 l2 : List FileEntry) (dir : String) :
    hasEnvSibling (l1 ++ l2) dir =
      (hasEnvSibling l1 dir || hasEnvSibling l2 dir) := by
  simp [hasEnvSibling, List.any_append]

theorem mem_newEnvFiles_name (fs : List FileEntry) (f : FileEntry)
    (hf : f ∈ newEnvFiles fs) : f.name = ".env" := by
  simp only [newEnvFiles, List.mem_map, List.mem_filter] at hf
  obtain ⟨g, -, rfl⟩ := hf
  rfl

theorem newEnvFiles_append_nil (fs extra : List FileEntry)
    (hextra : ∀ f ∈ extra, f.name = ".env")
    (hcover : ∀ f ∈ fs, f.name = ".env.example" →
      hasEnvSibling fs f.dir = false → hasEnvSibling extra f.dir = true) :
    newEnvFiles (fs ++ extra) = [] := by
  unfold newEnvFiles
  rw [List.map_eq_nil_iff]
  rw [List.filter_eq_nil_iff]
  intro f hf hp
  simp only [Bool.and_eq_true, Bool.not_eq_true', decide_eq_true_eq] at hp
  obtain ⟨hname, hno⟩ := hp
  rcases List.mem_append.mp hf with hl | hr
  · rw [hasEnvSibling_append, Bool.or_eq_false_iff] at hno
    exact absurd (hcover f hl hname hno.1) (by simp [hno.2])
  · have := hextra f hr
    rw [this] at hname
    exact absurd hname (by decide)

/-- C9: `copyEnvExampleFiles` is idempotent: it keeps every existing file,
only creates sibling `.env` files in directories with no `.env`, and a
second run over the resulting tree creates nothing and changes nothing. -/
theorem copyEnvExampleFiles_idempotent (fs : List FileEntry) :
    copyEnvExampleFiles (copyEnvExampleFiles fs) = copyEnvExampleFiles fs
    ∧ (∀ f ∈ fs, f ∈ copyEnvExampleFiles fs)
    ∧ (∀ f ∈ newEnvFiles fs, f.name = ".env" ∧
        hasEnvSibling fs f.dir = false) := by
  refine ⟨?_, fun f hf => List.mem_append_left _ hf, ?_⟩
  · have hnil : newEnvFiles (fs ++ newEnvFiles fs) = [] := by
      apply newEnvFiles_append_nil
      · exact mem_newEnvFiles_name fs
      · intro f hf hname hfs
        unfold hasEnvSibling
        apply List.any_eq_true.mpr
        refine ⟨mkEnv f, ?_, by simp [mkEnv]⟩
        simp only [newEnvFiles, List.mem_map]
        exact ⟨f, List.mem_filter.mpr ⟨hf, by simp [hname, hfs]⟩, rfl⟩
    show copyEnvExampleFiles fs ++ newEnvFiles (copyEnvExampleFiles fs) =
      copyEnvExampleFiles fs
    rw [show newEnvFiles (copyEnvExampleFiles fs) =
        newEnvFiles (fs ++ newEnvFiles fs) from rfl, hnil, List.append_nil]
  · intro f hf
    refine ⟨mem_newEnvFiles_name fs f hf, ?_⟩
    simp only [newEnvFiles, List.mem_map, List.mem_filter,
      Bool.and_eq_true, Bool.not_eq_true', decide_eq_true_eq] at hf
    obtain ⟨g, ⟨-, -, hno⟩, rfl⟩ := hf
    exact hno

end Sun
